import Mathlib

/-!
Verification development for the guardrail / conversation-management core of
an audio-analysis chat assistant.  The Python sources embedded here are
src/src/utils/guardrails.py (class ContentFilter), src/src/core/llm_client.py
(class MistralClient) and src/src/services/chat_service.py (class ChatService).

Strings are modelled as Lean strings (lists of characters); the embedding
assumes ASCII text, matching the regular expressions of the source, which are
written over ASCII classes.  Regular-expression substitutions are hand-compiled
to executable scanners that reproduce the left-to-right, leftmost-match,
greedy-with-backtracking semantics of the concrete patterns in the source.
Recursive scanners use a fuel argument (initialised to the input length, which
each step strictly decreases below) so that every definition is structurally
recursive and computable by the kernel.
-/

namespace MistralGuard

/-- Python ASCII whitespace, the characters matched by the regex class
backslash-s and stripped by str.strip(): space, tab, newline, carriage
return, vertical tab, form feed. -/
def pyWs (c : Char) : Bool :=
  c = ' ' || c = '\t' || c = '\n' || c = '\r' || c = '\x0b' || c = '\x0c'

/-- Python ASCII word character (regex class backslash-w): letters, digits,
underscore. -/
def wordChar (c : Char) : Bool :=
  c.isAlphanum || c = '_'

/-- Word-character test lifted to an optional character; a missing character
(string edge) counts as a non-word character, as for the regex anchor
backslash-b. -/
def wordCharOpt : Option Char → Bool
  | none => false
  | some c => wordChar c

/-- Literal-prefix test on character lists (hand-compiled form of matching a
literal at the current position). -/
def startsWithL : List Char → List Char → Bool
  | [], _ => true
  | _ :: _, [] => false
  | p :: ps, c :: cs => if p = c then startsWithL ps cs else false

/-- Length of the maximal run of characters satisfying p at the head. -/
def maxRun (p : Char → Bool) (cs : List Char) : Nat :=
  (cs.takeWhile p).length

/-- Python slicing l[-n:] for n at least 1: the last n elements (the whole
list when it is shorter than n). -/
def lastN (n : Nat) (l : List α) : List α :=
  l.drop (l.length - n)

/-- Python str.split() with no argument: split on runs of whitespace,
dropping empty pieces.  Fuel-driven scanner; fuel = input length suffices. -/
def splitWsAux : Nat → List Char → List (List Char)
  | 0, _ => []
  | fuel + 1, cs =>
    let cs1 := cs.dropWhile pyWs
    match cs1 with
    | [] => []
    | _ :: _ =>
      let w := cs1.takeWhile (fun c => !pyWs c)
      w :: splitWsAux fuel (cs1.drop w.length)

/-- Python content_lower.split() on a character list. -/
def splitWs (cs : List Char) : List (List Char) :=
  splitWsAux cs.length cs

/-- re.findall of the pattern backslash-b backslash-w+ backslash-b: the
maximal runs of word characters. -/
def findWordsAux : Nat → List Char → List (List Char)
  | 0, _ => []
  | fuel + 1, cs =>
    let cs1 := cs.dropWhile (fun c => !wordChar c)
    match cs1 with
    | [] => []
    | _ :: _ =>
      let w := cs1.takeWhile wordChar
      w :: findWordsAux fuel (cs1.drop w.length)

/-- All maximal word-character runs of a character list. -/
def findWords (cs : List Char) : List (List Char) :=
  findWordsAux cs.length cs

/-! ## Unsafe-content patterns (guardrails.py lines 20-24)

The three inappropriate-content regexes are alternations of literal words
(with backslash-s+ between the words of the two-word phrases), wrapped in
word-boundary anchors and compiled case-insensitively; they are searched in
the lowered text.  Each alternative is represented as the list of its words. -/

def unsafePhrases : List (List String) :=
  [["hate"], ["violence"], ["harmful"], ["illegal"], ["dangerous"],
   ["attack"], ["harm"], ["hurt"], ["kill"], ["destroy"],
   ["personal", "information"], ["private", "data"], ["ssn"], ["credit", "card"]]

/-- Match the words of a phrase separated by one-or-more whitespace
characters, starting at the head of cs; returns the remainder after the last
word.  (The words are all alphabetic, so greedy whitespace consumption is
exact.) -/
def phraseTail : List String → List Char → Option (List Char)
  | [], cs => some cs
  | [w], cs =>
    if startsWithL w.data cs then some (cs.drop w.length) else none
  | w :: ws, cs =>
    if startsWithL w.data cs then
      let rest := cs.drop w.length
      let sp := rest.takeWhile pyWs
      if sp.length = 0 then none else phraseTail ws (rest.drop sp.length)
    else none

/-- A phrase match at the head of cs, including the trailing word-boundary
anchor (the character after the last word, if any, is a non-word
character). -/
def phraseAt (p : List String) (cs : List Char) : Bool :=
  match phraseTail p cs with
  | none => false
  | some rest => !wordCharOpt rest.head?

/-- Scan all positions for a phrase occurrence; prevW records whether the
character before the current position is a word character, realising the
leading word-boundary anchor (every phrase starts with a letter). -/
def containsPhraseAux (p : List String) : Bool → List Char → Bool
  | _, [] => false
  | prevW, c :: cs =>
    (!prevW && phraseAt p (c :: cs)) || containsPhraseAux p (wordChar c) cs

/-- pattern.search over a string: does the phrase occur at a word boundary
anywhere? -/
def containsPhrase (p : List String) (s : String) : Bool :=
  containsPhraseAux p false s.data

/-- Python str.lower() on ASCII text, as a map over the characters (the
byte-position-driven String.mapAux of core Lean is avoided because it is
defined by well-founded recursion and does not reduce in the kernel). -/
def pyLower (s : String) : String :=
  ⟨s.data.map Char.toLower⟩

/-- Python `not content or not content.strip()` for a string: empty or
whitespace-only. -/
def pyBlank (s : String) : Bool :=
  s.data.all pyWs

/-- ContentFilter.is_safe_content (guardrails.py lines 50-84).

The repetition guard divides Python floats; exact rational comparison
(10 * unique < 3 * total) agrees with the float comparison for every
reachable token count, because the closest fraction to 3/10 with a
denominator below the 5000-character cap differs from it by far more than
double rounding error. -/
def isSafeContent (content : String) : Bool :=
  if pyBlank content then true
  else
    let lower := pyLower content
    if unsafePhrases.any (fun p => containsPhrase p lower) then false
    else if 5000 < content.length then false
    else
      let words := splitWs lower.data
      if 10 < words.length then
        if 10 * words.dedup.length < 3 * words.length then false else true
      else true

/-- is_safe_content applied to a possibly-None Python value: `not content`
is true for None, so None is safe. -/
def isSafeContentOpt : Option String → Bool
  | none => true
  | some s => isSafeContent s

/-! ## Sensitive-data removal (guardrails.py lines 112-127)

Three re.sub calls, in source order: e-mail addresses, phone numbers, URLs
outside a fixed set of scheme-prefix alternatives. -/

def classA (c : Char) : Bool :=
  c.isAlphanum || c = '.' || c = '_' || c = '%' || c = '+' || c = '-'

def classB (c : Char) : Bool :=
  c.isAlphanum || c = '.' || c = '-'

def classC (c : Char) : Bool :=
  c.isAlpha || c = '|'

/-- Backtracking loop for the top-level-domain part of the e-mail pattern:
the character class [A-Z|a-z] repeated at least twice, greedy, followed by a
word boundary.  k is the candidate length, tried from the maximal run
downwards. -/
def tryCFrom (cs : List Char) : Nat → Option Nat
  | 0 => none
  | k + 1 =>
    if k + 1 < 2 then none
    else if wordCharOpt (cs.get? k) != wordCharOpt (cs.get? (k + 1)) then some (k + 1)
    else tryCFrom cs k

/-- Backtracking loop for the domain part of the e-mail pattern: class
[A-Za-z0-9.-] repeated, greedy, then a literal dot, then the
top-level-domain part.  b+1 is the candidate domain length, tried from the
maximal run downwards; returns the length consumed after the at-sign. -/
def tryBFrom (rest : List Char) : Nat → Option Nat
  | 0 => none
  | b + 1 =>
    if rest.get? (b + 1) = some '.' then
      match tryCFrom (rest.drop (b + 2)) (maxRun classC (rest.drop (b + 2))) with
      | some c => some (b + 2 + c)
      | none => tryBFrom rest b
    else tryBFrom rest b

/-- Match of the e-mail regex at the head of cs (prev is the original
character before this position, for the leading word-boundary anchor);
returns the match length.  The local part (class [A-Za-z0-9._%+-] repeated)
is deterministic because the at-sign is outside the class. -/
def emailMatchAt (prev : Option Char) (cs : List Char) : Option Nat :=
  match cs with
  | [] => none
  | c :: _ =>
    if !classA c then none
    else if wordCharOpt prev == wordChar c then none
    else
      let a := maxRun classA cs
      if cs.get? a = some '@' then
        match tryBFrom (cs.drop (a + 1)) (maxRun classB (cs.drop (a + 1))) with
        | some bc => some (a + 1 + bc)
        | none => none
      else none

/-- re.sub scanner for the e-mail pattern; replacement [EMAIL_REMOVED].
After a match of length n the scan resumes at the character after the match,
with the original character at offset n-1 as boundary context. -/
def emailSubAux : Nat → Option Char → List Char → List Char
  | 0, _, cs => cs
  | _ + 1, _, [] => []
  | fuel + 1, prev, c :: cs =>
    match emailMatchAt prev (c :: cs) with
    | some n => "[EMAIL_REMOVED]".data ++ emailSubAux fuel ((c :: cs).get? (n - 1)) ((c :: cs).drop n)
    | none => c :: emailSubAux fuel (some c) cs

def emailSubL (cs : List Char) : List Char :=
  emailSubAux cs.length none cs

/-- The optional separators of the phone pattern: the class [-.] . -/
def sepChar (c : Char) : Bool :=
  c = '-' || c = '.'

/-- Consume exactly n digits. -/
def chompDigits : Nat → List Char → Option (List Char)
  | 0, cs => some cs
  | _ + 1, [] => none
  | n + 1, c :: cs => if c.isDigit then chompDigits n cs else none

/-- Consume one separator character. -/
def chompSep : List Char → Option (List Char)
  | [] => none
  | c :: cs => if sepChar c then some cs else none

/-- One alternative of the phone pattern (s1, s2 say whether the two optional
separators are taken): three digits, separator?, three digits, separator?,
four digits, word boundary.  Returns the match length. -/
def phoneCombo (s1 s2 : Bool) (cs : List Char) : Option Nat := do
  let r1 ← chompDigits 3 cs
  let r2 ← if s1 then chompSep r1 else some r1
  let r3 ← chompDigits 3 r2
  let r4 ← if s2 then chompSep r3 else some r3
  let r5 ← chompDigits 4 r4
  if wordCharOpt r5.head? then none
  else some (10 + (if s1 then 1 else 0) + (if s2 then 1 else 0))

/-- Match of the phone regex at the head of cs: greedy optional separators
are tried present-first, realising the backtracking order. -/
def phoneMatchAt (prev : Option Char) (cs : List Char) : Option Nat :=
  match cs with
  | [] => none
  | c :: _ =>
    if !c.isDigit then none
    else if wordCharOpt prev then none
    else
      phoneCombo true true cs <|> phoneCombo true false cs <|>
        phoneCombo false true cs <|> phoneCombo false false cs

/-- re.sub scanner for the phone pattern; replacement [PHONE_REMOVED]. -/
def phoneSubAux : Nat → Option Char → List Char → List Char
  | 0, _, cs => cs
  | _ + 1, _, [] => []
  | fuel + 1, prev, c :: cs =>
    match phoneMatchAt prev (c :: cs) with
    | some n => "[PHONE_REMOVED]".data ++ phoneSubAux fuel ((c :: cs).get? (n - 1)) ((c :: cs).drop n)
    | none => c :: phoneSubAux fuel (some c) cs

def phoneSubL (cs : List Char) : List Char :=
  phoneSubAux cs.length none cs

/-- The negative lookahead of the URL pattern: the text after the scheme
separator must not start with wikipedia, github, docs.python or librosa. -/
def allowedAfterScheme (cs : List Char) : Bool :=
  startsWithL "wikipedia".data cs || startsWithL "github".data cs ||
    startsWithL "docs.python".data cs || startsWithL "librosa".data cs

/-- Match of the URL regex https?://(?!allow-list)[^ws]+ at the head of cs;
returns the match length.  The scheme has no leading anchor; the tail is the
maximal non-whitespace run and must be nonempty. -/
def urlMatchAt (cs : List Char) : Option Nat :=
  if startsWithL "https://".data cs then
    let rest := cs.drop 8
    if allowedAfterScheme rest then none
    else
      let t := rest.takeWhile (fun c => !pyWs c)
      if t.length = 0 then none else some (8 + t.length)
  else if startsWithL "http://".data cs then
    let rest := cs.drop 7
    if allowedAfterScheme rest then none
    else
      let t := rest.takeWhile (fun c => !pyWs c)
      if t.length = 0 then none else some (7 + t.length)
  else none

/-- re.sub scanner for the URL pattern; replacement [URL_REMOVED]. -/
def urlSubAux : Nat → List Char → List Char
  | 0, cs => cs
  | _ + 1, [] => []
  | fuel + 1, c :: cs =>
    match urlMatchAt (c :: cs) with
    | some n => "[URL_REMOVED]".data ++ urlSubAux fuel ((c :: cs).drop n)
    | none => c :: urlSubAux fuel cs

def urlSubL (cs : List Char) : List Char :=
  urlSubAux cs.length cs

/-- ContentFilter._remove_sensitive_data: e-mail, then phone, then URL
substitution, in source order. -/
def removeSensitiveDataL (cs : List Char) : List Char :=
  urlSubL (phoneSubL (emailSubL cs))

def removeSensitiveData (s : String) : String :=
  ⟨removeSensitiveDataL s.data⟩

/-! ## Formatting cleanup (guardrails.py lines 129-142) -/

/-- re.sub of one-or-more whitespace to a single space, compiled to a
structural one-pass scanner: a whitespace character opening a run becomes a
space, later characters of the run are dropped. -/
def wsCollapse : List Char → List Char
  | [] => []
  | [c] => if pyWs c then [' '] else [c]
  | c :: d :: cs =>
    if pyWs c && pyWs d then wsCollapse (d :: cs)
    else (if pyWs c then ' ' else c) :: wsCollapse (d :: cs)

/-- re.sub of a class repeated at least minRun times to a fixed replacement
(used for the punctuation and newline collapses): maximal runs reaching the
threshold are replaced, shorter runs are kept. -/
def runCollapse (p : Char → Bool) (minRun : Nat) (repl : List Char) :
    Nat → List Char → List Char
  | 0, cs => cs
  | _ + 1, [] => []
  | fuel + 1, c :: cs =>
    if p c then
      let run := (cs.takeWhile p).length + 1
      if minRun ≤ run then repl ++ runCollapse p minRun repl fuel (cs.drop (run - 1))
      else c :: runCollapse p minRun repl fuel cs
    else c :: runCollapse p minRun repl fuel cs

/-- [!?]{3,} collapsed to a single exclamation mark. -/
def bangCollapse (cs : List Char) : List Char :=
  runCollapse (fun c => c = '!' || c = '?') 3 ['!'] cs.length cs

/-- Four-or-more periods collapsed to exactly three. -/
def dotCollapse (cs : List Char) : List Char :=
  runCollapse (fun c => c = '.') 4 ['.', '.', '.'] cs.length cs

/-- Three-or-more newlines collapsed to exactly two. -/
def newlineCollapse (cs : List Char) : List Char :=
  runCollapse (fun c => c = '\n') 3 ['\n', '\n'] cs.length cs

/-- Python str.strip(): remove leading and trailing whitespace. -/
def pyStrip (cs : List Char) : List Char :=
  ((cs.dropWhile pyWs).reverse.dropWhile pyWs).reverse

/-- ContentFilter._clean_formatting: whitespace collapse, punctuation
collapses, newline collapse, strip, in source order. -/
def cleanFormattingL (cs : List Char) : List Char :=
  pyStrip (newlineCollapse (dotCollapse (bangCollapse (wsCollapse cs))))

def cleanFormatting (s : String) : String :=
  ⟨cleanFormattingL s.data⟩

/-- The sanitisation pipeline of filter_content before the topic check:
_remove_sensitive_data then _clean_formatting (guardrails.py lines 100-103). -/
def sanitize (s : String) : String :=
  ⟨cleanFormattingL (removeSensitiveDataL s.data)⟩

/-! ## Topic guard (guardrails.py lines 31-37 and 144-175) -/

def allowedTopics : List String :=
  ["audio", "spectrogram", "frequency", "sound", "music", "acoustic",
   "signal", "processing", "analysis", "waveform", "amplitude",
   "decibel", "hertz", "pitch", "tone", "harmony", "rhythm",
   "tempo", "beat", "melody", "voice", "speech", "recording"]

/-- The fixed acknowledgment set of _is_on_topic; note the two-word entry,
present in the source set although a single word token can never equal it. -/
def shortResponses : List String :=
  ["ok", "yes", "no", "hello", "thanks", "thank you"]

/-- ContentFilter._is_on_topic (guardrails.py lines 144-165).  words is the
set of word tokens of the lowered text; found its intersection with the
topic vocabulary; `any (word in short_responses)` is set membership of each
single token. -/
def isOnTopic (content : String) : Bool :=
  let lower := pyLower content
  let words := (findWords lower.data).dedup
  let found := words.filter (fun w => allowedTopics.any (fun t => t.data == w))
  if content.length < 200 && 0 < found.length then true
  else if 200 ≤ content.length then
    (if 2 ≤ found.length then true else false)
  else if words.length ≤ 3 && words.any (fun w => shortResponses.any (fun t => t.data == w)) then
    true
  else
    (if 0 < found.length then true else false)

/-- The fixed advisory suffix of _add_topic_redirect (guardrails.py lines
169-173). -/
def redirectNote : String :=
  "\n\n[Note: I focus on audio analysis topics. If you have questions about spectrograms, audio features, or sound analysis, I\x27d be happy to help!]"

def addTopicRedirect (content : String) : String :=
  content ++ redirectNote

/-- The system prompt constant (guardrails.py lines 40-48), returned by
get_system_prompt. -/
def systemContext : String :=
  "\n        You are an audio analysis assistant. Your responses should be:\n        1. Focused on audio, music, and sound analysis topics\n        2. Educational and informative\n        3. Professional and appropriate\n        4. Clear and accessible to users with varying technical backgrounds\n        \n        Avoid discussing unrelated topics and maintain focus on audio analysis.\n        "

/-- ContentFilter.filter_content (guardrails.py lines 86-110): sensitive-data
removal, formatting cleanup, then the topic-redirect note if the cleaned
text is off-topic. -/
def filterContent (content : String) : String :=
  if content = "" then content
  else
    let f := sanitize content
    if isOnTopic f then f else addTopicRedirect f

/-- filter_content applied to a possibly-None Python value: `if not content:
return content` hands None back unchanged. -/
def filterContentOpt : Option String → Option String
  | none => none
  | some s => some (filterContent s)

/-- The validation dictionary of validate_question; modified_question none
models Python None (the key is present in every branch of the source). -/
structure ValidationResult where
  is_valid : Bool
  reason : String
  modified_question : Option String
deriving DecidableEq, Repr

/-- ContentFilter.validate_question (guardrails.py lines 181-216). -/
def validateQuestion (question : String) : ValidationResult :=
  if !isSafeContent question then
    ⟨false, "Question contains inappropriate content", none⟩
  else
    let cleaned := filterContent question
    if !isOnTopic cleaned then
      ⟨true, "Question is off-topic but allowed",
        some (cleaned ++ " (Please provide an audio analysis perspective if possible.)")⟩
    else
      ⟨true, "Question passed all checks",
        if cleaned ≠ question then some cleaned else none⟩

/-! ## LLM client (llm_client.py)

A chat message dictionary.  In every flow of this code base the content key
is present; its value may be Python None (which the service can produce, see
send_message), modelled as none. -/

structure Message where
  role : String
  content : Option String
deriving DecidableEq, Repr

/-- The possible outcomes of the HTTP transport consumed by chat_completion:
a 200 response with a choices array (carrying the first choice's message
content), a 200 response without choices, a non-200 status, a timeout, or a
requests exception. -/
inductive TransportResponse where
  | ok (content : String)
  | noChoices
  | httpError (code : Nat) (text : String)
  | timeout
  | requestFailed (msg : String)
deriving DecidableEq, Repr

/-- The result dictionary of chat_completion, restricted to the fields the
callers consume. -/
structure ChatResult where
  success : Bool
  content : Option String
  error : Option String
deriving DecidableEq, Repr

/-- MistralClient._validate_and_filter_content (llm_client.py lines 65-75):
raises ValueError on unsafe content, otherwise filters.  filterOn models
settings.enable_content_filter (default true). -/
def validateAndFilterContent (filterOn : Bool) (content : Option String) :
    Except String (Option String) :=
  if filterOn then
    if isSafeContentOpt content = false then Except.error "Content failed safety checks"
    else Except.ok (filterContentOpt content)
  else Except.ok content

/-- The in-place validation loop of chat_completion (llm_client.py lines
100-102), with the mutation made explicit: returns the state of the caller's
message list after the loop together with the ValueError message if one was
raised.  On an error the failing message and its successors are left
unmodified, the predecessors are already overwritten. -/
def filterMessagesAux (filterOn : Bool) : List Message → List Message × Option String
  | [] => ([], none)
  | m :: ms =>
    match validateAndFilterContent filterOn m.content with
    | Except.error e => (m :: ms, some e)
    | Except.ok c =>
      let r := filterMessagesAux filterOn ms
      (⟨m.role, c⟩ :: r.1, r.2)

/-- MistralClient.chat_completion (llm_client.py lines 77-185), as a function
of the transport outcome.  Returns the result dictionary together with the
final state of the caller's messages list (mutated in place by the
validation loop).  The response content of a successful call is filtered but
never safety-checked. -/
def chatCompletion (filterOn : Bool) (requestTimeout : Nat)
    (transport : List Message → TransportResponse) (messages : List Message) :
    ChatResult × List Message :=
  match filterMessagesAux filterOn messages with
  | (ms, some e) => (⟨false, none, some e⟩, ms)
  | (ms, none) =>
    match transport ms with
    | TransportResponse.ok raw =>
      let c := if filterOn then filterContent raw else raw
      (⟨true, some c, none⟩, ms)
    | TransportResponse.noChoices =>
      (⟨false, none, some "Invalid response format"⟩, ms)
    | TransportResponse.httpError code text =>
      (⟨false, none, some ("API request failed: " ++ toString code ++ " - " ++ text)⟩, ms)
    | TransportResponse.timeout =>
      (⟨false, none, some ("Request timeout after " ++ toString requestTimeout ++ " seconds")⟩, ms)
    | TransportResponse.requestFailed msg =>
      (⟨false, none, some ("Request failed: " ++ msg)⟩, ms)

/-! ## Chat service (chat_service.py) -/

/-- One recorded exchange of the conversation history (chat_service.py lines
255-261). -/
structure Exchange where
  user : String
  assistant : String
  timestamp : String
deriving DecidableEq, Repr

/-- self.max_history (chat_service.py line 22). -/
def maxHistory : Nat := 10

/-- ChatService._update_conversation_history (chat_service.py lines 255-265):
append, then keep only the last max_history entries when the bound is
exceeded. -/
def updateConversationHistory (history : List Exchange)
    (userMessage aiResponse now : String) : List Exchange :=
  let h := history ++ [⟨userMessage, aiResponse, now⟩]
  if maxHistory < h.length then lastN maxHistory h else h

/-- The per-exchange pair of messages appended by the history loop of
_build_conversation_context (chat_service.py lines 246-248). -/
def interleaveExchanges : List Exchange → List Message
  | [] => []
  | e :: es => ⟨"user", some e.user⟩ :: ⟨"assistant", some e.assistant⟩ :: interleaveExchanges es

/-- ChatService._build_conversation_context (chat_service.py lines 223-253):
one system message, the user/assistant pairs of the last five exchanges, one
final user message.  systemPrompt is the prompt after the optional
context-data augmentation (the base prompt when no context data is given;
the float rendering of audio features is outside this embedding). -/
def buildConversationContext (systemPrompt : String) (history : List Exchange)
    (currentMessage : Option String) : List Message :=
  ⟨"system", some systemPrompt⟩ ::
    (interleaveExchanges (lastN 5 history) ++ [⟨"user", currentMessage⟩])

/-- The result dictionary of send_message, restricted to the fields the
claims concern. -/
structure SendResult where
  success : Bool
  error : Option String
  ai_response : Option String
  conversation_length : Option Nat
deriving DecidableEq, Repr

/-- ChatService.send_message (chat_service.py lines 52-112) without context
data, parameterised by the transport and the current timestamp; returns the
result dictionary and the new conversation history.  processed_message is
validation_result.get(modified_question, user_message): the key is present
in every branch of validate_question, so Python get returns the stored value
(None when sanitisation made no change) and the default is never used. -/
def sendMessage (filterOn : Bool) (requestTimeout : Nat)
    (transport : List Message → TransportResponse)
    (history : List Exchange) (userMessage : String) (now : String) :
    SendResult × List Exchange :=
  let vr := validateQuestion userMessage
  if vr.is_valid = false then
    (⟨false, some vr.reason, none, none⟩, history)
  else
    let processed := vr.modified_question
    let messages := buildConversationContext systemContext history processed
    let resp := (chatCompletion filterOn requestTimeout transport messages).1
    if resp.success then
      let newHistory := updateConversationHistory history userMessage (resp.content.getD "") now
      (⟨true, none, resp.content, some newHistory.length⟩, newHistory)
    else
      (⟨false, resp.error, none, none⟩, history)

/-! ## Helper lemmas -/

theorem maxHistory_eq : maxHistory = 10 := rfl

theorem lastN_of_le {α : Type _} {l : List α} {n : Nat} (h : l.length ≤ n) :
    lastN n l = l := by
  unfold lastN
  rw [Nat.sub_eq_zero_of_le h, List.drop_zero]

theorem lastN_length {α : Type _} (n : Nat) (l : List α) :
    (lastN n l).length = min l.length n := by
  unfold lastN
  rw [List.length_drop]
  omega

theorem lastN_idem_append {α : Type _} (n : Nat) (l r : List α) :
    lastN n (lastN n l ++ r) = lastN n (l ++ r) := by
  rcases Nat.le_total l.length n with h | h
  · rw [lastN_of_le h]
  · unfold lastN
    have h1 : (List.drop (l.length - n) l).length = n := by
      rw [List.length_drop]; omega
    have h2 : (List.drop (l.length - n) l ++ r).length - n = r.length := by
      rw [List.length_append, h1]; omega
    have e1 : l ++ r = l.take (l.length - n) ++ (l.drop (l.length - n) ++ r) := by
      rw [← List.append_assoc, List.take_append_drop]
    rw [h2, e1]
    have e2 : (l.take (l.length - n) ++ (l.drop (l.length - n) ++ r)).length - n
        = (l.take (l.length - n)).length + r.length := by
      rw [List.length_append, List.length_append, List.length_take, List.length_drop]
      omega
    rw [e2, List.drop_append]

theorem updateConversationHistory_eq (h : List Exchange) (u a ts : String) :
    updateConversationHistory h u a ts = lastN maxHistory (h ++ [⟨u, a, ts⟩]) := by
  simp only [updateConversationHistory]
  split
  · rfl
  · next hh => exact (lastN_of_le (by omega)).symm

theorem updateConversationHistory_length (h : List Exchange) (u a ts : String) :
    (updateConversationHistory h u a ts).length = min (h.length + 1) maxHistory := by
  rw [updateConversationHistory_eq, lastN_length]
  simp [List.length_append]

/-- A sequence of record calls starting from an arbitrary in-bound history
retains exactly the last maxHistory entries. -/
theorem foldl_update_eq (xs : List (String × String × String)) :
    ∀ h : List Exchange, h.length ≤ maxHistory →
      xs.foldl (fun hh x => updateConversationHistory hh x.1 x.2.1 x.2.2) h
        = lastN maxHistory (h ++ xs.map (fun x => ⟨x.1, x.2.1, x.2.2⟩)) := by
  induction xs with
  | nil => intro h hl; simp [lastN_of_le hl]
  | cons x xs ih =>
    intro h hl
    rw [List.foldl_cons,
      ih _ (by rw [updateConversationHistory_length, maxHistory_eq]; omega),
      updateConversationHistory_eq, lastN_idem_append]
    simp

theorem interleaveExchanges_length (l : List Exchange) :
    (interleaveExchanges l).length = 2 * l.length := by
  induction l with
  | nil => rfl
  | cons e es ih => simp [interleaveExchanges, ih]; omega

/-- When every message content passes the safety check, the validation loop
of chat_completion overwrites each content with its filtered version and
raises nothing. -/
theorem filterMessagesAux_safe :
    ∀ msgs : List Message, (∀ m ∈ msgs, isSafeContentOpt m.content = true) →
      filterMessagesAux true msgs
        = (msgs.map (fun m => ⟨m.role, filterContentOpt m.content⟩), none) := by
  intro msgs
  induction msgs with
  | nil => intro _; rfl
  | cons m ms ih =>
    intro h
    have hm := h m (List.mem_cons_self m ms)
    simp [filterMessagesAux, validateAndFilterContent, hm,
      ih (fun m' hm' => h m' (List.mem_cons_of_mem _ hm'))]

/-- When some message content fails the safety check, the validation loop of
chat_completion raises ValueError with the fixed message. -/
theorem filterMessagesAux_unsafe :
    ∀ msgs : List Message, (∃ m ∈ msgs, isSafeContentOpt m.content = false) →
      (filterMessagesAux true msgs).2 = some "Content failed safety checks" := by
  intro msgs
  induction msgs with
  | nil => intro h; simp at h
  | cons m ms ih =>
    intro h
    by_cases hm : isSafeContentOpt m.content = false
    · simp [filterMessagesAux, validateAndFilterContent, hm]
    · have htail : ∃ m' ∈ ms, isSafeContentOpt m'.content = false := by
        rcases h with ⟨m', hm', hu⟩
        rcases List.mem_cons.1 hm' with rfl | hmem
        · exact absurd hu hm
        · exact ⟨m', hmem, hu⟩
      have hms : isSafeContentOpt m.content = true := by
        cases hv : isSafeContentOpt m.content
        · exact absurd hv hm
        · rfl
      simp [filterMessagesAux, validateAndFilterContent, hms, ih htail]

/-- Characterisation of the characters surviving the whitespace collapse:
each is either the replacement space or an original non-whitespace
character. -/
theorem mem_wsCollapse {a : Char} :
    ∀ {cs : List Char}, a ∈ wsCollapse cs → a = ' ' ∨ (a ∈ cs ∧ pyWs a = false) := by
  intro cs
  induction cs with
  | nil => intro ha; simp [wsCollapse] at ha
  | cons c cs ih =>
    cases cs with
    | nil =>
      by_cases hc : pyWs c = true <;> intro ha <;> simp [wsCollapse, hc] at ha
      · exact Or.inl ha
      · subst ha
        exact Or.inr ⟨List.mem_cons_self _ _, by simpa using hc⟩
    | cons d cs' =>
      by_cases h1 : pyWs c = true <;> by_cases h2 : pyWs d = true <;>
        intro ha <;> simp only [wsCollapse, h1, h2] at ha
      · rcases ih (by simpa using ha) with h | ⟨hmem, hns⟩
        · exact Or.inl h
        · exact Or.inr ⟨List.mem_cons_of_mem _ hmem, hns⟩
      · simp at ha
        rcases ha with rfl | ha
        · exact Or.inl rfl
        · rcases ih ha with h | ⟨hmem, hns⟩
          · exact Or.inl h
          · exact Or.inr ⟨List.mem_cons_of_mem _ hmem, hns⟩
      all_goals
        simp at ha
        rcases ha with rfl | ha
        · exact Or.inr ⟨List.mem_cons_self _ _, by simpa using h1⟩
        · rcases ih ha with h | ⟨hmem, hns⟩
          · exact Or.inl h
          · exact Or.inr ⟨List.mem_cons_of_mem _ hmem, hns⟩

theorem wsCollapse_no_nl (cs : List Char) : '\n' ∉ wsCollapse cs := by
  intro h
  rcases mem_wsCollapse h with h1 | ⟨_, h2⟩
  · exact absurd h1 (by decide)
  · exact absurd h2 (by decide)

/-- Every character surviving a run collapse comes from the input or from
the replacement text. -/
theorem mem_runCollapse {a : Char} {p : Char → Bool} {m : Nat} {repl : List Char} :
    ∀ {fuel : Nat} {cs : List Char},
      a ∈ runCollapse p m repl fuel cs → a ∈ cs ∨ a ∈ repl := by
  intro fuel
  induction fuel with
  | zero => intro cs ha; exact Or.inl ha
  | succ f ih =>
    intro cs
    cases cs with
    | nil => intro ha; simp [runCollapse] at ha
    | cons c cs' =>
      intro ha
      simp only [runCollapse] at ha
      by_cases hp : p c = true
      · simp only [hp, if_true] at ha
        by_cases hm : m ≤ (cs'.takeWhile p).length + 1
        · simp only [hm, if_true] at ha
          rcases List.mem_append.1 ha with h | h
          · exact Or.inr h
          · rcases ih h with h' | h'
            · exact Or.inl (List.mem_cons_of_mem _ (List.drop_subset _ _ h'))
            · exact Or.inr h'
        · simp only [hm, if_false] at ha
          rcases List.mem_cons.1 ha with rfl | h
          · exact Or.inl (List.mem_cons_self _ _)
          · rcases ih h with h' | h'
            · exact Or.inl (List.mem_cons_of_mem _ h')
            · exact Or.inr h'
      · simp only [hp, if_false] at ha
        rcases List.mem_cons.1 ha with rfl | h
        · exact Or.inl (List.mem_cons_self _ _)
        · rcases ih h with h' | h'
          · exact Or.inl (List.mem_cons_of_mem _ h')
          · exact Or.inr h'

/-- A run collapse whose class matches no input character is the identity. -/
theorem runCollapse_id {p : Char → Bool} {m : Nat} {repl : List Char} :
    ∀ {fuel : Nat} {cs : List Char}, (∀ c ∈ cs, p c = false) →
      runCollapse p m repl fuel cs = cs := by
  intro fuel
  induction fuel with
  | zero => intro cs _; rfl
  | succ f ih =>
    intro cs h
    cases cs with
    | nil => rfl
    | cons c cs' =>
      have hc := h c (List.mem_cons_self c cs')
      simp [runCollapse, hc, ih (fun c' hc' => h c' (List.mem_cons_of_mem _ hc'))]

theorem pyStrip_subset (cs : List Char) : pyStrip cs ⊆ cs := by
  intro a ha
  unfold pyStrip at ha
  rw [List.mem_reverse] at ha
  have h1 := (List.dropWhile_sublist pyWs).subset ha
  rw [List.mem_reverse] at h1
  exact (List.dropWhile_sublist pyWs).subset h1

/-- No newline character survives _clean_formatting: the leading whitespace
collapse replaces every whitespace run (newlines included) by a single
space, and no later step reintroduces a newline. -/
theorem cleanFormattingL_no_nl (cs : List Char) : '\n' ∉ cleanFormattingL cs := by
  intro h
  have hw : '\n' ∉ wsCollapse cs := wsCollapse_no_nl cs
  have hb : '\n' ∉ bangCollapse (wsCollapse cs) := by
    intro hx
    rcases mem_runCollapse hx with h' | h'
    · exact hw h'
    · simp at h'
  have hd : '\n' ∉ dotCollapse (bangCollapse (wsCollapse cs)) := by
    intro hx
    rcases mem_runCollapse hx with h' | h'
    · exact hb h'
    · simp at h'
  have h1 := pyStrip_subset _ h
  rw [newlineCollapse,
    runCollapse_id (fun c hc => by
      apply decide_eq_false
      intro he
      subst he
      exact hd hc)] at h1
  exact hd h1

theorem urlSubAux_nil (f : Nat) : urlSubAux f [] = [] := by
  cases f <;> rfl

theorem startsWithL_mem {p l : List Char} {a : Char}
    (h : startsWithL p l = true) (ha : a ∈ p) : a ∈ l := by
  induction p generalizing l with
  | nil => simp at ha
  | cons x ps ih =>
    cases l with
    | nil => simp [startsWithL] at h
    | cons c cs =>
      simp only [startsWithL] at h
      by_cases hx : x = c
      · subst hx
        rw [if_pos rfl] at h
        rcases List.mem_cons.1 ha with rfl | ha'
        · exact List.mem_cons_self _ _
        · exact List.mem_cons_of_mem _ (ih h ha')
      · rw [if_neg hx] at h
        simp at h

theorem urlMatchAt_none_of_ne {c : Char} (cs : List Char) (h : c ≠ 'h') :
    urlMatchAt (c :: cs) = none := by
  have h1 : startsWithL "https://".data (c :: cs) = false := by
    show startsWithL ('h' :: 't' :: 't' :: 'p' :: 's' :: ':' :: '/' :: '/' :: []) (c :: cs) = false
    simp only [startsWithL]
    rw [if_neg (fun hh => h hh.symm)]
  have h2 : startsWithL "http://".data (c :: cs) = false := by
    show startsWithL ('h' :: 't' :: 't' :: 'p' :: ':' :: '/' :: '/' :: []) (c :: cs) = false
    simp only [startsWithL]
    rw [if_neg (fun hh => h hh.symm)]
  unfold urlMatchAt
  rw [h1, h2]
  simp

theorem urlMatchAt_none_of_no_colon {cs : List Char} (h : ':' ∉ cs) :
    urlMatchAt cs = none := by
  have h1 : startsWithL "https://".data cs = false := by
    cases hs : startsWithL "https://".data cs
    · rfl
    · exact absurd (startsWithL_mem hs (by decide)) h
  have h2 : startsWithL "http://".data cs = false := by
    cases hs : startsWithL "http://".data cs
    · rfl
    · exact absurd (startsWithL_mem hs (by decide)) h
  unfold urlMatchAt
  rw [h1, h2]
  simp

/-- The URL scanner is the identity when no position matches. -/
theorem urlSubAux_id :
    ∀ {fuel : Nat} {cs : List Char}, cs.length ≤ fuel →
      (∀ k, urlMatchAt (cs.drop k) = none) → urlSubAux fuel cs = cs := by
  intro fuel
  induction fuel with
  | zero =>
    intro cs hl _
    cases cs with
    | nil => rfl
    | cons c cs' => simp at hl
  | succ f ih =>
    intro cs hl h
    cases cs with
    | nil => rfl
    | cons c cs' =>
      have h0 := h 0
      simp only [List.drop_zero] at h0
      simp only [urlSubAux, h0]
      rw [ih (by simpa using hl) (fun k => by
        have hk := h (k + 1)
        simpa [List.drop_succ_cons] using hk)]

theorem urlMatchAt_http_removed (tail : List Char) (hne : tail ≠ [])
    (hnw : ∀ c ∈ tail, pyWs c = false) (hall : allowedAfterScheme tail = false) :
    urlMatchAt ("http://".data ++ tail) = some (7 + tail.length) := by
  have hhttps : startsWithL "https://".data ("http://".data ++ tail) = false := by
    show startsWithL ('h' :: 't' :: 't' :: 'p' :: 's' :: ':' :: '/' :: '/' :: [])
      ('h' :: 't' :: 't' :: 'p' :: ':' :: '/' :: '/' :: tail) = false
    simp [startsWithL]
  have hhttp : startsWithL "http://".data ("http://".data ++ tail) = true := by
    show startsWithL ('h' :: 't' :: 't' :: 'p' :: ':' :: '/' :: '/' :: [])
      ('h' :: 't' :: 't' :: 'p' :: ':' :: '/' :: '/' :: tail) = true
    simp [startsWithL]
  have hdrop : ("http://".data ++ tail).drop 7 = tail := by
    show ('h' :: 't' :: 't' :: 'p' :: ':' :: '/' :: '/' :: tail).drop 7 = tail
    simp [List.drop_succ_cons]
  have htake : tail.takeWhile (fun c => !pyWs c) = tail :=
    List.takeWhile_eq_self_iff.2 (fun c hc => by simp [hnw c hc])
  unfold urlMatchAt
  rw [hhttps, hhttp]
  simp only [Bool.false_eq_true, if_false, if_true, hdrop, hall, htake]
  rw [if_neg (by simpa using hne)]

theorem urlMatchAt_https_removed (tail : List Char) (hne : tail ≠ [])
    (hnw : ∀ c ∈ tail, pyWs c = false) (hall : allowedAfterScheme tail = false) :
    urlMatchAt ("https://".data ++ tail) = some (8 + tail.length) := by
  have hhttps : startsWithL "https://".data ("https://".data ++ tail) = true := by
    show startsWithL ('h' :: 't' :: 't' :: 'p' :: 's' :: ':' :: '/' :: '/' :: [])
      ('h' :: 't' :: 't' :: 'p' :: 's' :: ':' :: '/' :: '/' :: tail) = true
    simp [startsWithL]
  have hdrop : ("https://".data ++ tail).drop 8 = tail := by
    show ('h' :: 't' :: 't' :: 'p' :: 's' :: ':' :: '/' :: '/' :: tail).drop 8 = tail
    simp [List.drop_succ_cons]
  have htake : tail.takeWhile (fun c => !pyWs c) = tail :=
    List.takeWhile_eq_self_iff.2 (fun c hc => by simp [hnw c hc])
  unfold urlMatchAt
  rw [hhttps]
  simp only [if_true, hdrop, hall, htake]
  simp [List.length_eq_zero, hne]

theorem urlMatchAt_http_kept (tail : List Char) (hall : allowedAfterScheme tail = true) :
    urlMatchAt ("http://".data ++ tail) = none := by
  have hhttps : startsWithL "https://".data ("http://".data ++ tail) = false := by
    show startsWithL ('h' :: 't' :: 't' :: 'p' :: 's' :: ':' :: '/' :: '/' :: [])
      ('h' :: 't' :: 't' :: 'p' :: ':' :: '/' :: '/' :: tail) = false
    simp [startsWithL]
  have hhttp : startsWithL "http://".data ("http://".data ++ tail) = true := by
    show startsWithL ('h' :: 't' :: 't' :: 'p' :: ':' :: '/' :: '/' :: [])
      ('h' :: 't' :: 't' :: 'p' :: ':' :: '/' :: '/' :: tail) = true
    simp [startsWithL]
  have hdrop : ("http://".data ++ tail).drop 7 = tail := by
    show ('h' :: 't' :: 't' :: 'p' :: ':' :: '/' :: '/' :: tail).drop 7 = tail
    simp [List.drop_succ_cons]
  unfold urlMatchAt
  rw [hhttps, hhttp]
  simp [hdrop, hall]

theorem urlMatchAt_https_kept (tail : List Char) (hall : allowedAfterScheme tail = true) :
    urlMatchAt ("https://".data ++ tail) = none := by
  have hhttps : startsWithL "https://".data ("https://".data ++ tail) = true := by
    show startsWithL ('h' :: 't' :: 't' :: 'p' :: 's' :: ':' :: '/' :: '/' :: [])
      ('h' :: 't' :: 't' :: 'p' :: 's' :: ':' :: '/' :: '/' :: tail) = true
    simp [startsWithL]
  have hdrop : ("https://".data ++ tail).drop 8 = tail := by
    show ('h' :: 't' :: 't' :: 'p' :: 's' :: ':' :: '/' :: '/' :: tail).drop 8 = tail
    simp [List.drop_succ_cons]
  unfold urlMatchAt
  rw [hhttps]
  simp [hdrop, hall]

/-- Inside a kept URL of the form http://tail with no further colon, no
later position starts a match. -/
theorem urlMatchAt_drop_http (tail : List Char) (hc : ':' ∉ tail) :
    ∀ k, 1 ≤ k → urlMatchAt (("http://".data ++ tail).drop k) = none := by
  intro k hk
  have hshow : "http://".data ++ tail
      = 'h' :: 't' :: 't' :: 'p' :: ':' :: '/' :: '/' :: tail := rfl
  rcases k with _ | _ | _ | _ | _ | _ | _ | j
  · omega
  · rw [hshow]
    simp only [List.drop_succ_cons, List.drop_zero]
    exact urlMatchAt_none_of_ne _ (by decide)
  · rw [hshow]
    simp only [List.drop_succ_cons, List.drop_zero]
    exact urlMatchAt_none_of_ne _ (by decide)
  · rw [hshow]
    simp only [List.drop_succ_cons, List.drop_zero]
    exact urlMatchAt_none_of_ne _ (by decide)
  · rw [hshow]
    simp only [List.drop_succ_cons, List.drop_zero]
    exact urlMatchAt_none_of_ne _ (by decide)
  · rw [hshow]
    simp only [List.drop_succ_cons, List.drop_zero]
    exact urlMatchAt_none_of_ne _ (by decide)
  · rw [hshow]
    simp only [List.drop_succ_cons, List.drop_zero]
    exact urlMatchAt_none_of_ne _ (by decide)
  · have hdrop : ("http://".data ++ tail).drop (j + 7) = tail.drop j := by
      have : j + 7 = "http://".data.length + j := by
        show j + 7 = 7 + j
        omega
      rw [this, List.drop_append]
    rw [hdrop]
    exact urlMatchAt_none_of_no_colon (fun hm => hc (List.mem_of_mem_drop hm))

/-- Inside a kept URL of the form https://tail with no further colon, no
later position starts a match. -/
theorem urlMatchAt_drop_https (tail : List Char) (hc : ':' ∉ tail) :
    ∀ k, 1 ≤ k → urlMatchAt (("https://".data ++ tail).drop k) = none := by
  intro k hk
  have hshow : "https://".data ++ tail
      = 'h' :: 't' :: 't' :: 'p' :: 's' :: ':' :: '/' :: '/' :: tail := rfl
  rcases k with _ | _ | _ | _ | _ | _ | _ | _ | j
  · omega
  · rw [hshow]
    simp only [List.drop_succ_cons, List.drop_zero]
    exact urlMatchAt_none_of_ne _ (by decide)
  · rw [hshow]
    simp only [List.drop_succ_cons, List.drop_zero]
    exact urlMatchAt_none_of_ne _ (by decide)
  · rw [hshow]
    simp only [List.drop_succ_cons, List.drop_zero]
    exact urlMatchAt_none_of_ne _ (by decide)
  · rw [hshow]
    simp only [List.drop_succ_cons, List.drop_zero]
    exact urlMatchAt_none_of_ne _ (by decide)
  · rw [hshow]
    simp only [List.drop_succ_cons, List.drop_zero]
    exact urlMatchAt_none_of_ne _ (by decide)
  · rw [hshow]
    simp only [List.drop_succ_cons, List.drop_zero]
    exact urlMatchAt_none_of_ne _ (by decide)
  · rw [hshow]
    simp only [List.drop_succ_cons, List.drop_zero]
    exact urlMatchAt_none_of_ne _ (by decide)
  · have hdrop : ("https://".data ++ tail).drop (j + 8) = tail.drop j := by
      have : j + 8 = "https://".data.length + j := by
        show j + 8 = 8 + j
        omega
      rw [this, List.drop_append]
    rw [hdrop]
    exact urlMatchAt_none_of_no_colon (fun hm => hc (List.mem_of_mem_drop hm))

/-- The final state of the caller's message list after chat_completion is
the state left by the validation loop, whatever the transport outcome. -/
theorem chatCompletion_snd (fo : Bool) (rt : Nat)
    (t : List Message → TransportResponse) (msgs : List Message) :
    (chatCompletion fo rt t msgs).2 = (filterMessagesAux fo msgs).1 := by
  unfold chatCompletion
  split
  · next ms e heq => rw [heq]
  · next ms heq => split <;> rw [heq]

/-- chat_completion when the validation loop raises: the result is a failure
carrying the raised message, independently of the transport. -/
theorem chatCompletion_error (fo : Bool) (rt : Nat)
    (t : List Message → TransportResponse) (msgs : List Message) (e : String)
    (he : (filterMessagesAux fo msgs).2 = some e) :
    (chatCompletion fo rt t msgs).1 = ⟨false, none, some e⟩ := by
  unfold chatCompletion
  split
  · next ms e' heq =>
    rw [heq] at he
    simp only [] at he
    rw [he]
  · next ms heq =>
    rw [heq] at he
    simp at he

/-- chat_completion when the validation loop succeeds and the transport
returns a content: the result is a success whose content is the filtered
response when filtering is on. -/
theorem chatCompletion_ok (fo : Bool) (rt : Nat)
    (t : List Message → TransportResponse) (msgs ms : List Message) (raw : String)
    (hfm : filterMessagesAux fo msgs = (ms, none)) (htr : t ms = TransportResponse.ok raw) :
    (chatCompletion fo rt t msgs).1
      = ⟨true, some (if fo then filterContent raw else raw), none⟩ := by
  unfold chatCompletion
  split
  · next ms' e' heq =>
    rw [heq] at hfm
    simp at hfm
  · next ms' heq =>
    rw [heq] at hfm
    have hms : ms' = ms := by simpa using hfm
    subst hms
    split
    · next raw' heq2 =>
      rw [htr] at heq2
      injection heq2 with hr
      rw [hr]
    all_goals
      rw [htr] at *
      simp_all

/-! ## Spec-modelled comparison definitions (for claim C7)

The spec describes the URL rule as an allow-list of hosts; the following two
definitions are modelled from the spec words "URLs whose host is not in a
fixed allow-list (domains associated with reference/documentation sites)"
for comparison with the source rule, whose lookahead only tests a prefix of
the text after the scheme separator. -/

/-- Modelled from the spec: the host of a URL, the text between the scheme
separator and the first slash. -/
def specHostOf (url : String) : String :=
  ⟨(((url.data.dropWhile (fun c => c ≠ ':')).drop 3).takeWhile (fun c => c ≠ '/'))⟩

/-- Modelled from the spec: the fixed allow-list of reference/documentation
domains named by the spec. -/
def specAllowedDomains : List String :=
  ["wikipedia", "github", "docs.python", "librosa"]

/-! ## Claims -/

/-- C1: for a question that passes validation with no sanitisation change,
validate_question leaves modified_question unset (None); but send_message
then forwards that None — not the original text — as the content of the
final user message handed to the transport, because validation_result.get
finds the key present with value None.  Evaluated at the failing input
"hello" on a fresh session: the message list ends with a user message whose
content is None rather than "hello", and the client validation loop keeps
None unchanged. -/
theorem c1_hello_forwards_none :
    (validateQuestion "hello").is_valid = true ∧
    (validateQuestion "hello").modified_question = none ∧
    (buildConversationContext systemContext []
        (validateQuestion "hello").modified_question).getLast? = some ⟨"user", none⟩ ∧
    (buildConversationContext systemContext []
        (validateQuestion "hello").modified_question).getLast? ≠ some ⟨"user", some "hello"⟩ ∧
    validateAndFilterContent true none = Except.ok none := by
  refine ⟨by decide, by decide, by decide, by decide, rfl⟩

/-- C2 counterexample: the claim states that every model-returned response
content is safety-classified and unsafe content fails the turn; but
chat_completion returns success for a transport response whose content fails
the safety classifier. -/
theorem c2_counterexample :
    isSafeContent "I want to kill the process" = false ∧
    (chatCompletion true 30 (fun _ => TransportResponse.ok "I want to kill the process")
        [⟨"user", some "hello"⟩]).1.success = true := by
  exact ⟨by decide, by decide⟩

/-- C7 counterexample: the claim states that a URL is kept unchanged iff its
host is in the allow-list; sanitize keeps this URL although its host
github.evil.com is not one of the allow-listed domains (the source lookahead
only tests the text directly after the scheme separator). -/
theorem c7_counterexample :
    sanitize "see http://github.evil.com/code now" = "see http://github.evil.com/code now" ∧
    specHostOf "http://github.evil.com/code" = "github.evil.com" ∧
    specHostOf "http://github.evil.com/code" ∉ specAllowedDomains := by
  refine ⟨by decide, by decide, by decide⟩

/-- C8: the acknowledgment special case of _is_on_topic tests single word
tokens for membership in the fixed set; the two-word entry "thank you" can
never equal a single token, so isOnTopic "thank you" is false although the
set contains "thank you" and the text has at most 3 tokens, while the
single-token acknowledgment "thanks" is accepted. -/
theorem c8_thank_you_rejected :
    isOnTopic "thank you" = false ∧
    isOnTopic "thanks" = true ∧
    "thank you" ∈ shortResponses ∧
    (findWords (pyLower "thank you").data).dedup.length ≤ 3 := by
  refine ⟨by decide, by decide, by decide, by decide⟩

/-- C9 counterexample: the claim states that a run of three-or-more newlines
survives sanitisation as exactly two newlines; in fact the earlier
whitespace collapse replaces the whole run by a single space, and no newline
remains in the output at all. -/
theorem c9_counterexample :
    sanitize "a\n\n\nb" = "a b" ∧ '\n' ∉ (sanitize "a\n\n\nb").data := by
  refine ⟨by decide, by decide⟩

/-- C2 amended: the safety classifier gates the outbound message contents
before the transport call — if any outbound content is unsafe the whole call
fails with the fixed safety error and the transport is never consulted —
while a successful transport response is only filtered (sanitised and
possibly topic-redirected), never safety-classified. -/
theorem c2_amended_outbound_gate :
    ∀ (rt : Nat) (t t' : List Message → TransportResponse) (msgs : List Message),
      ((∃ m ∈ msgs, isSafeContentOpt m.content = false) →
        (chatCompletion true rt t msgs).1 = (chatCompletion true rt t' msgs).1 ∧
        (chatCompletion true rt t msgs).1.success = false ∧
        (chatCompletion true rt t msgs).1.error = some "Content failed safety checks") ∧
      ((∀ m ∈ msgs, isSafeContentOpt m.content = true) →
        ∀ raw : String,
          t (msgs.map (fun m => ⟨m.role, filterContentOpt m.content⟩))
            = TransportResponse.ok raw →
          (chatCompletion true rt t msgs).1 = ⟨true, some (filterContent raw), none⟩) := by
  intro rt t t' msgs
  constructor
  · intro h
    have h2 := filterMessagesAux_unsafe msgs h
    rw [chatCompletion_error true rt t msgs _ h2,
      chatCompletion_error true rt t' msgs _ h2]
    exact ⟨rfl, rfl, rfl⟩
  · intro h raw htr
    have h2 := filterMessagesAux_safe msgs h
    rw [chatCompletion_ok true rt t msgs _ raw h2 htr]
    simp

/-- C2 amended witness. -/
theorem c2_amended_witness :
    ((chatCompletion true 30 (fun _ => TransportResponse.ok "x")
          [⟨"user", some "attack now"⟩]).1
        = (chatCompletion true 30 (fun _ => TransportResponse.timeout)
            [⟨"user", some "attack now"⟩]).1 ∧
      (chatCompletion true 30 (fun _ => TransportResponse.ok "x")
          [⟨"user", some "attack now"⟩]).1.success = false ∧
      (chatCompletion true 30 (fun _ => TransportResponse.ok "x")
          [⟨"user", some "attack now"⟩]).1.error = some "Content failed safety checks") ∧
    (chatCompletion true 30 (fun _ => TransportResponse.ok "hi")
        ([] : List Message)).1 = ⟨true, some (filterContent "hi"), none⟩ :=
  ⟨(c2_amended_outbound_gate 30 (fun _ => TransportResponse.ok "x")
      (fun _ => TransportResponse.timeout) [⟨"user", some "attack now"⟩]).1
      ⟨⟨"user", some "attack now"⟩, List.mem_cons_self _ _, by decide⟩,
   (c2_amended_outbound_gate 30 (fun _ => TransportResponse.ok "hi")
      (fun _ => TransportResponse.ok "hi") []).2
      (fun m hm => absurd hm (List.not_mem_nil m)) "hi" rfl⟩

/-- C3: send_message is atomic with respect to the conversation history — a
validation failure returns the reason, consults no transport and leaves the
history unchanged; a failed completion leaves the history unchanged; only a
fully successful turn appends the exchange (growing the history by one when
below capacity). -/
theorem c3_send_message_atomicity :
    ∀ (fo : Bool) (rt : Nat) (t t' : List Message → TransportResponse)
      (hist : List Exchange) (msg now : String),
      ((validateQuestion msg).is_valid = false →
        sendMessage fo rt t hist msg now = sendMessage fo rt t' hist msg now ∧
        (sendMessage fo rt t hist msg now).1.success = false ∧
        (sendMessage fo rt t hist msg now).1.error = some (validateQuestion msg).reason ∧
        (sendMessage fo rt t hist msg now).2 = hist) ∧
      ((validateQuestion msg).is_valid = true →
        ((chatCompletion fo rt t (buildConversationContext systemContext hist
            (validateQuestion msg).modified_question)).1.success = false →
          (sendMessage fo rt t hist msg now).1.success = false ∧
          (sendMessage fo rt t hist msg now).2 = hist) ∧
        ((chatCompletion fo rt t (buildConversationContext systemContext hist
            (validateQuestion msg).modified_question)).1.success = true →
          (sendMessage fo rt t hist msg now).2
            = updateConversationHistory hist msg
                ((chatCompletion fo rt t (buildConversationContext systemContext hist
                    (validateQuestion msg).modified_question)).1.content.getD "") now ∧
          (hist.length < maxHistory →
            (sendMessage fo rt t hist msg now).2.length = hist.length + 1))) := by
  intro fo rt t t' hist msg now
  constructor
  · intro hv
    refine ⟨?_, ?_, ?_, ?_⟩ <;> simp [sendMessage, hv]
  · intro hv
    constructor
    · intro hs
      constructor <;> simp [sendMessage, hv, hs]
    · intro hs
      have h2 : (sendMessage fo rt t hist msg now).2
          = updateConversationHistory hist msg
              ((chatCompletion fo rt t (buildConversationContext systemContext hist
                  (validateQuestion msg).modified_question)).1.content.getD "") now := by
        simp [sendMessage, hv, hs]
      refine ⟨h2, ?_⟩
      intro hl
      rw [maxHistory_eq] at hl
      rw [h2, updateConversationHistory_length, maxHistory_eq]
      omega

/-- C3 witness. -/
theorem c3_witness :
    (sendMessage true 30 (fun _ => TransportResponse.timeout) [] "attack" "t"
        = sendMessage true 30 (fun _ => TransportResponse.noChoices) [] "attack" "t") ∧
    (sendMessage true 30 (fun _ => TransportResponse.timeout) [] "attack" "t").2 = [] ∧
    ((sendMessage false 30 (fun _ => TransportResponse.timeout) [] "hello" "t").1.success = false ∧
      (sendMessage false 30 (fun _ => TransportResponse.timeout) [] "hello" "t").2 = []) ∧
    (sendMessage false 30 (fun _ => TransportResponse.ok "resp") [] "hello" "t").2.length
      = ([] : List Exchange).length + 1 :=
  ⟨((c3_send_message_atomicity true 30 (fun _ => TransportResponse.timeout)
      (fun _ => TransportResponse.noChoices) [] "attack" "t").1 (by decide)).1,
   ((c3_send_message_atomicity true 30 (fun _ => TransportResponse.timeout)
      (fun _ => TransportResponse.noChoices) [] "attack" "t").1 (by decide)).2.2.2,
   ((c3_send_message_atomicity false 30 (fun _ => TransportResponse.timeout)
      (fun _ => TransportResponse.timeout) [] "hello" "t").2 (by decide)).1 (by decide),
   (((c3_send_message_atomicity false 30 (fun _ => TransportResponse.ok "resp")
      (fun _ => TransportResponse.ok "resp") [] "hello" "t").2 (by decide)).2 (by decide)).2
      (by decide)⟩

/-- C4: the conversation history is a FIFO ring bounded by max_history —
after any sequence of record calls the retained history is exactly the last
min(n, max_history) recorded exchanges in insertion order, its length never
exceeds max_history, and recording exchange #11 with the default bound of 10
evicts exactly exchange #1. -/
theorem c4_fifo_history :
    (∀ xs : List (String × String × String),
      xs.foldl (fun hh x => updateConversationHistory hh x.1 x.2.1 x.2.2) []
          = lastN maxHistory (xs.map (fun x => ⟨x.1, x.2.1, x.2.2⟩)) ∧
      (xs.foldl (fun hh x => updateConversationHistory hh x.1 x.2.1 x.2.2) []).length
          ≤ maxHistory) ∧
    ([("u1", "a", "t"), ("u2", "a", "t"), ("u3", "a", "t"), ("u4", "a", "t"),
      ("u5", "a", "t"), ("u6", "a", "t"), ("u7", "a", "t"), ("u8", "a", "t"),
      ("u9", "a", "t"), ("u10", "a", "t"), ("u11", "a", "t")].foldl
        (fun hh x => updateConversationHistory hh x.1 x.2.1 x.2.2) []).map Exchange.user
      = ["u2", "u3", "u4", "u5", "u6", "u7", "u8", "u9", "u10", "u11"] := by
  constructor
  · intro xs
    have he := foldl_update_eq xs [] (by simp)
    simp only [List.nil_append] at he
    refine ⟨he, ?_⟩
    rw [he, lastN_length, maxHistory_eq]
    omega
  · decide

/-- C5: _build_conversation_context produces one system message, then the
user/assistant pairs of at most the last five retained exchanges in order,
then one final user message carrying the current message value; the total
length is 2 * min(k, 5) + 2, hence 12 after 8 recorded exchanges. -/
theorem c5_build_messages :
    ∀ (prompt : String) (hist : List Exchange) (cur : Option String),
      (buildConversationContext prompt hist cur).length = 2 * min hist.length 5 + 2 ∧
      (buildConversationContext prompt hist cur).head? = some ⟨"system", some prompt⟩ ∧
      (buildConversationContext prompt hist cur).getLast? = some ⟨"user", cur⟩ ∧
      ((buildConversationContext prompt hist cur).drop 1).dropLast
        = interleaveExchanges (lastN 5 hist) ∧
      (hist.length = 8 → (buildConversationContext prompt hist cur).length = 12) := by
  intro prompt hist cur
  have hlen : (buildConversationContext prompt hist cur).length
      = 2 * min hist.length 5 + 2 := by
    simp only [buildConversationContext, List.length_cons, List.length_append,
      interleaveExchanges_length, lastN_length, List.length_singleton, List.length_nil]
  refine ⟨hlen, rfl, ?_, ?_, ?_⟩
  · show (⟨"system", some prompt⟩ ::
      (interleaveExchanges (lastN 5 hist) ++ [⟨"user", cur⟩])).getLast? = _
    rw [← List.cons_append, List.getLast?_concat]
  · show ((⟨"system", some prompt⟩ ::
      (interleaveExchanges (lastN 5 hist) ++ [⟨"user", cur⟩])).drop 1).dropLast = _
    rw [List.drop_one, List.tail_cons, List.dropLast_concat]
  · intro h8
    rw [hlen, h8]
    omega

/-- C5 witness. -/
theorem c5_build_messages_witness :
    (buildConversationContext "p"
        [⟨"u1", "a", "t"⟩, ⟨"u2", "a", "t"⟩, ⟨"u3", "a", "t"⟩, ⟨"u4", "a", "t"⟩,
         ⟨"u5", "a", "t"⟩, ⟨"u6", "a", "t"⟩, ⟨"u7", "a", "t"⟩, ⟨"u8", "a", "t"⟩]
        (some "q")).length = 12 :=
  (c5_build_messages "p"
    [⟨"u1", "a", "t"⟩, ⟨"u2", "a", "t"⟩, ⟨"u3", "a", "t"⟩, ⟨"u4", "a", "t"⟩,
     ⟨"u5", "a", "t"⟩, ⟨"u6", "a", "t"⟩, ⟨"u7", "a", "t"⟩, ⟨"u8", "a", "t"⟩]
    (some "q")).2.2.2.2 (by decide)

/-- C6: is_safe_content classifies non-blank text as unsafe exactly when an
unsafe pattern matches at a word boundary in the lowered text, or the text
exceeds 5000 characters, or it has more than 10 whitespace tokens with a
distinct-to-total ratio below 0.30; blank text is safe, the kill example is
unsafe, the spectral-centroid example is safe. -/
theorem c6_safety_rules :
    (∀ s : String, pyBlank s = true → isSafeContent s = true) ∧
    (∀ s : String, pyBlank s = false →
      (isSafeContent s = false ↔
        (unsafePhrases.any (fun p => containsPhrase p (pyLower s)) = true ∨
         5000 < s.length ∨
         (10 < (splitWs (pyLower s).data).length ∧
          10 * (splitWs (pyLower s).data).dedup.length
            < 3 * (splitWs (pyLower s).data).length)))) ∧
    isSafeContent "I want to kill the process" = false ∧
    isSafeContent "What is the spectral centroid of this track?" = true := by
  refine ⟨?_, ?_, by decide, by decide⟩
  · intro s hb
    simp [isSafeContent, hb]
  · intro s hb
    simp only [isSafeContent, hb, Bool.false_eq_true, if_false]
    by_cases h1 : unsafePhrases.any (fun p => containsPhrase p (pyLower s)) = true
    · simp [h1]
    · by_cases h2 : 5000 < s.length
      · simp [h1, h2]
      · by_cases h3 : 10 < (splitWs (pyLower s).data).length
        · by_cases h4 : 10 * (splitWs (pyLower s).data).dedup.length
              < 3 * (splitWs (pyLower s).data).length
          · simp [h1, h2, h3, h4]
          · simp [h1, h2, h3, h4]
        · simp [h1, h2, h3]

/-- C6 witness. -/
theorem c6_safety_rules_witness :
    isSafeContent " " = true ∧
    (isSafeContent "kill" = false ↔
      (unsafePhrases.any (fun p => containsPhrase p (pyLower "kill")) = true ∨
       5000 < ("kill" : String).length ∨
       (10 < (splitWs (pyLower "kill").data).length ∧
        10 * (splitWs (pyLower "kill").data).dedup.length
          < 3 * (splitWs (pyLower "kill").data).length))) :=
  ⟨c6_safety_rules.1 " " (by decide), c6_safety_rules.2.1 "kill" (by decide)⟩

/-- C7 amended: the URL rule of the sensitive-data removal is a prefix test,
not a host allow-list — a URL token (scheme, then a nonempty run of
non-whitespace characters with no further colon) is kept unchanged exactly
when the text directly after the scheme separator starts with wikipedia,
github, docs.python or librosa, and is replaced by [URL_REMOVED] otherwise. -/
theorem c7_amended_prefix_rule :
    ∀ (scheme : String) (tail : List Char),
      (scheme = "http://" ∨ scheme = "https://") →
      tail ≠ [] →
      (∀ c ∈ tail, pyWs c = false) →
      ':' ∉ tail →
      urlSubL (scheme.data ++ tail)
        = (if allowedAfterScheme tail then scheme.data ++ tail
           else "[URL_REMOVED]".data) := by
  intro scheme tail hs hne hnw hc
  rcases hs with rfl | rfl
  · cases hall : allowedAfterScheme tail
    · simp only [Bool.false_eq_true, if_false]
      have hm := urlMatchAt_http_removed tail hne hnw hall
      have hcons : "http://".data ++ tail
          = 'h' :: ('t' :: 't' :: 'p' :: ':' :: '/' :: '/' :: tail) := rfl
      have hlen : ("http://".data ++ tail).length = (6 + tail.length) + 1 := by
        rw [List.length_append]
        show 7 + tail.length = (6 + tail.length) + 1
        omega
      unfold urlSubL
      rw [hlen, hcons]
      rw [hcons] at hm
      simp only [urlSubAux, hm]
      have hdrop : ('h' :: 't' :: 't' :: 'p' :: ':' :: '/' :: '/' :: tail).drop (7 + tail.length)
          = [] := by
        apply List.drop_eq_nil_iff.2
        simp only [List.length_cons]
        omega
      rw [hdrop, urlSubAux_nil, List.append_nil]
    · simp only [if_true]
      unfold urlSubL
      apply urlSubAux_id (Nat.le_refl _)
      intro k
      rcases Nat.eq_zero_or_pos k with rfl | hk
      · rw [List.drop_zero]
        exact urlMatchAt_http_kept tail hall
      · exact urlMatchAt_drop_http tail hc k hk
  · cases hall : allowedAfterScheme tail
    · simp only [Bool.false_eq_true, if_false]
      have hm := urlMatchAt_https_removed tail hne hnw hall
      have hcons : "https://".data ++ tail
          = 'h' :: ('t' :: 't' :: 'p' :: 's' :: ':' :: '/' :: '/' :: tail) := rfl
      have hlen : ("https://".data ++ tail).length = (7 + tail.length) + 1 := by
        rw [List.length_append]
        show 8 + tail.length = (7 + tail.length) + 1
        omega
      unfold urlSubL
      rw [hlen, hcons]
      rw [hcons] at hm
      simp only [urlSubAux, hm]
      have hdrop : ('h' :: 't' :: 't' :: 'p' :: 's' :: ':' :: '/' :: '/' :: tail).drop
          (8 + tail.length) = [] := by
        apply List.drop_eq_nil_iff.2
        simp only [List.length_cons]
        omega
      rw [hdrop, urlSubAux_nil, List.append_nil]
    · simp only [if_true]
      unfold urlSubL
      apply urlSubAux_id (Nat.le_refl _)
      intro k
      rcases Nat.eq_zero_or_pos k with rfl | hk
      · rw [List.drop_zero]
        exact urlMatchAt_https_kept tail hall
      · exact urlMatchAt_drop_https tail hc k hk

/-- C7 amended witness. -/
theorem c7_amended_prefix_rule_witness :
    urlSubL ("http://".data ++ "github.com/x".data)
      = (if allowedAfterScheme "github.com/x".data
         then "http://".data ++ "github.com/x".data
         else "[URL_REMOVED]".data) :=
  c7_amended_prefix_rule "http://" "github.com/x".data (Or.inl rfl)
    (by decide) (by decide) (by decide)

/-- C9 amended: no newline at all survives sanitisation — the leading
whitespace collapse turns every newline run into a single space, so the
later newline-collapse rule never fires and a run of three-or-more newlines
is rendered as one space, not as two newlines. -/
theorem c9_amended_no_newline_output :
    ∀ s : String, '\n' ∉ (sanitize s).data := by
  intro s
  show '\n' ∉ cleanFormattingL (removeSensitiveDataL s.data)
  exact cleanFormattingL_no_nl _

/-- C10: chat_completion mutates its messages argument in place — when every
content is safe, the caller's list ends up with every content (system prompt
and history included) overwritten by its filtered version — and the whole
request fails when any message content fails the safety classifier. -/
theorem c10_in_place_filtering :
    ∀ (rt : Nat) (t : List Message → TransportResponse) (msgs : List Message),
      ((∀ m ∈ msgs, isSafeContentOpt m.content = true) →
        (chatCompletion true rt t msgs).2
          = msgs.map (fun m => ⟨m.role, filterContentOpt m.content⟩)) ∧
      ((∃ m ∈ msgs, isSafeContentOpt m.content = false) →
        (chatCompletion true rt t msgs).1.success = false) := by
  intro rt t msgs
  constructor
  · intro h
    have h2 := filterMessagesAux_safe msgs h
    rw [chatCompletion_snd, h2]
  · intro h
    have h2 := filterMessagesAux_unsafe msgs h
    rw [chatCompletion_error true rt t msgs _ h2]

/-- C10 witness. -/
theorem c10_in_place_filtering_witness :
    (chatCompletion true 30 (fun _ => TransportResponse.timeout)
        [⟨"system", some "hi there"⟩]).2
      = [(⟨"system", some "hi there"⟩ : Message)].map
          (fun m => ⟨m.role, filterContentOpt m.content⟩) ∧
    (chatCompletion true 30 (fun _ => TransportResponse.timeout)
        [⟨"user", some "kill"⟩]).1.success = false :=
  ⟨(c10_in_place_filtering 30 (fun _ => TransportResponse.timeout)
      [⟨"system", some "hi there"⟩]).1 (by decide),
   (c10_in_place_filtering 30 (fun _ => TransportResponse.timeout)
      [⟨"user", some "kill"⟩]).2
      ⟨⟨"user", some "kill"⟩, List.mem_cons_self _ _, by decide⟩⟩

end MistralGuard
